import Mathlib

/-!
Verification of the CallMe voice-call bridge against its specification.

The development shallowly embeds the parts of the TypeScript source that the
checked properties concern:

* `src/server/src/providers/stt-deepgram.ts` — the Deepgram streaming STT
  session: transcript accumulation and endpointing, the reconnect/backoff
  machine, `sendAudio`, `waitForTranscript`, `close`.
* `src/server/src/providers/tts-openai.ts` — WAV post-processing inside
  `synthesize`.
* `src/server/src/index-sse.ts` — transport selection in the `/messages`
  POST handler.
* `src/mcp-server/src/phone-call.ts` — transcript assembly in
  `VoiceHandler.completeCall`.
* `src/server/src/billing.ts` — `getMinutesRemaining` / `hasMinutesRemaining`.

JavaScript numbers that only ever hold small non-negative integers are
modelled as `Nat`; values that the source compares with `<` over possibly
negative inputs are modelled as `Int`.  Buffers are lists of byte values.
Callback invocations and WebSocket sends are modelled as emitted action
lists, so that "the code does X here" becomes "the step function emits the
action X".
-/

/-! ## Billing (`src/server/src/billing.ts`) -/

/-- The subscription plan record from `billing.ts`. -/
structure SubscriptionPlan where
  monthlyPriceCents : Int
  monthlyMinutes : Int
deriving DecidableEq

/-- `getMinutesRemaining(minutesUsed)` returns
`Math.max(0, plan.monthlyMinutes - minutesUsed)`. -/
def getMinutesRemaining (plan : SubscriptionPlan) (minutesUsed : Int) : Int :=
  max 0 (plan.monthlyMinutes - minutesUsed)

/-- `hasMinutesRemaining(minutesUsed)` returns
`minutesUsed < plan.monthlyMinutes`. -/
def hasMinutesRemaining (plan : SubscriptionPlan) (minutesUsed : Int) : Bool :=
  minutesUsed < plan.monthlyMinutes

/-! ## `sendAudio` (`stt-deepgram.ts`, lines 227–231) -/

/-- An observable effect of `sendAudio`: one WebSocket `send` of raw bytes. -/
inductive SendAction where
  | sendBytes (data : List Nat)
deriving DecidableEq

/-- `WebSocket.OPEN` readyState constant (the `ws` library uses 1). -/
def WS_OPEN : Nat := 1

/-- `sendAudio(muLawData)`:
`if (!this.connected || this.ws?.readyState !== WebSocket.OPEN) return;
 this.ws.send(muLawData);`.
The WebSocket field is `Option` (null when absent); `this.ws?.readyState`
of a null socket is `undefined`, which is never `WebSocket.OPEN`.
The returned list holds the sends performed. -/
def sendAudio (connected : Bool) (wsReadyState : Option Nat) (muLawData : List Nat) :
    List SendAction :=
  if connected = true ∧ wsReadyState = some WS_OPEN then [SendAction.sendBytes muLawData]
  else []

/-! ## `/messages` transport selection (`index-sse.ts`, lines 259–287) -/

/-- `activeTransports.get(sessionId)` on a `Map` kept as an association list in
insertion order (keys are unique: each is a fresh `crypto.randomUUID()`). -/
def lookupTransport (transports : List (String × Nat)) (sid : String) : Option Nat :=
  (transports.find? (fun p => p.1 == sid)).map (fun p => p.2)

/-- What the `/messages` POST handler does with a request. -/
inductive MessagesOutcome where
  | dispatched (transport : Nat)
  | rejected
deriving DecidableEq

/-- The transport-selection logic of the `/messages` handler:
look up `sessionId` when present; when that yields nothing, fall back to the
most recent transport (`transports[transports.length - 1]` of
`Array.from(activeTransports.values())`, i.e. the last inserted); reject with
503 only when no transport exists at all. -/
def handleMessagesPost (transports : List (String × Nat)) (sessionId : Option String) :
    MessagesOutcome :=
  let byId := match sessionId with
    | some sid => lookupTransport transports sid
    | none => none
  match byId with
  | some t => MessagesOutcome.dispatched t
  | none =>
    match transports.getLast? with
    | some p => MessagesOutcome.dispatched p.2
    | none => MessagesOutcome.rejected

/-! ## Reconnect machine (`stt-deepgram.ts`, lines 58–168 and 252–264)

Events delivered to a `DeepgramSTTSession` after it is connected: the
upstream WebSocket `close` handler (which calls `attemptReconnect` unless
`closed`), and the firing of the backoff sleep inside `attemptReconnect`
(which calls `doConnect` unless `closed`; `success` tells whether that
`doConnect` reached the `open` handler, which resets `reconnectAttempts`). -/

/-- `maxReconnectAttempts` field of `DeepgramSTTSession`. -/
def maxReconnectAttempts : Nat := 5

/-- `reconnectDelayMs` field of `DeepgramSTTSession`. -/
def reconnectDelayMs : Nat := 1000

/-- The mutable session fields the reconnect logic reads and writes. -/
structure ReconnState where
  closed : Bool
  connected : Bool
  reconnectAttempts : Nat
deriving DecidableEq

/-- Externally visible effects of the reconnect machine. -/
inductive ReconnAction where
  /-- `attemptReconnect` passed its guards and scheduled a retry after
  `delayMs` (`reconnectDelayMs * 2 ^ (reconnectAttempts - 1)` after the
  increment). -/
  | scheduleReconnect (delayMs : Nat)
  /-- The backoff sleep elapsed with the session still open, so `doConnect`
  runs and opens a fresh upstream WebSocket. -/
  | openConnection
deriving DecidableEq

/-- Events driving the reconnect machine. -/
inductive ReconnEvent where
  /-- The upstream WebSocket `close` handler fired. -/
  | wsClose
  /-- The backoff sleep inside a pending `attemptReconnect` elapsed;
  `success` is whether the ensuing `doConnect` succeeded. -/
  | timerFire (success : Bool)
deriving DecidableEq

/-- One event step.  `wsClose` runs the `close` handler: set
`connected = false`, and when not `closed` run the head of
`attemptReconnect` (give up at `maxReconnectAttempts`, otherwise increment
the counter and schedule the backoff sleep).  `timerFire` runs the tail of
`attemptReconnect`: abandon when `closed`, otherwise `doConnect`; on success
the `open` handler sets `connected` and resets `reconnectAttempts`. -/
def reconnStep (s : ReconnState) : ReconnEvent → ReconnState × List ReconnAction
  | ReconnEvent.wsClose =>
    let s1 : ReconnState := { s with connected := false }
    if s1.closed then (s1, [])
    else if s1.reconnectAttempts ≥ maxReconnectAttempts then (s1, [])
    else
      ({ s1 with reconnectAttempts := s1.reconnectAttempts + 1 },
        [ReconnAction.scheduleReconnect
          (reconnectDelayMs * 2 ^ (s1.reconnectAttempts + 1 - 1))])
  | ReconnEvent.timerFire success =>
    if s.closed then (s, [])
    else if success then
      ({ s with connected := true, reconnectAttempts := 0 }, [ReconnAction.openConnection])
    else (s, [ReconnAction.openConnection])

/-- Run a sequence of events, accumulating the emitted actions. -/
def reconnRun (s : ReconnState) : List ReconnEvent → ReconnState × List ReconnAction
  | [] => (s, [])
  | e :: es =>
    let (s1, out1) := reconnStep s e
    let (s2, out2) := reconnRun s1 es
    (s2, out1 ++ out2)

/-- Number of reconnect attempts scheduled in an action list. -/
def countScheduled (actions : List ReconnAction) : Nat :=
  actions.countP fun a => match a with
    | ReconnAction.scheduleReconnect _ => true
    | _ => false

/-- `close()`: sets `closed = true`, clears the keepalive, closes the socket
(`connected = false`).  The attempt counter is untouched. -/
def closeSession (s : ReconnState) : ReconnState :=
  { s with closed := true, connected := false }

/-! ## TTS WAV post-processing (`tts-openai.ts`, lines 49–88) -/

/-- `buffer.readUInt16LE(off)` on a byte list (little endian). -/
def readUInt16LE (b : List Nat) (off : Nat) : Nat :=
  b.getD off 0 + 256 * b.getD (off + 1) 0

/-- `buffer.readUInt32LE(off)` on a byte list (little endian). -/
def readUInt32LE (b : List Nat) (off : Nat) : Nat :=
  b.getD off 0 + 256 * b.getD (off + 1) 0 + 65536 * b.getD (off + 2) 0 +
    16777216 * b.getD (off + 3) 0

/-- What `synthesize` hands to its caller: the PCM bytes and the sample rate
the provider reports afterwards (`this._sampleRate`). -/
structure SynthesisResult where
  pcm : List Nat
  sampleRate : Nat
deriving DecidableEq

/-- The WAV post-processing tail of `OpenAITTSProvider.synthesize`:
`if (useWav && buffer.length > 44)` it reads channels (offset 22), sample
rate (offset 24) and bits-per-sample (offset 34) from the header — channels
and bits-per-sample are only logged — stores the detected sample rate, and
strips exactly 44 bytes (`buffer.subarray(44)`); otherwise the buffer and
the configured rate pass through unchanged. -/
def synthesizeWav (useWav : Bool) (sampleRate : Nat) (buffer : List Nat) : SynthesisResult :=
  if useWav = true ∧ 44 < buffer.length then
    { pcm := buffer.drop 44, sampleRate := readUInt32LE buffer 24 }
  else
    { pcm := buffer, sampleRate := sampleRate }

/-- Does the `data` FourCC (bytes `64 61 74 61`) start at index `i`? -/
def isDataAt (b : List Nat) (i : Nat) : Bool :=
  b.getD i 0 == 100 && b.getD (i + 1) 0 == 97 &&
    b.getD (i + 2) 0 == 116 && b.getD (i + 3) 0 == 97

/-- Modelled from the spec: "Locate the `data` chunk (do not assume 44-byte
header — scan for the `data` FourCC if the header exceeds 44 bytes)".
Returns the first index at which the `data` FourCC starts; the payload then
begins 8 bytes later (FourCC + chunk size).  No function in the source does
this — it is the behaviour the spec prescribes, used to exhibit the gap. -/
def findDataChunk (b : List Nat) : Option Nat :=
  (List.range b.length).find? (isDataAt b)

/-- Decode one little-endian signed 16-bit sample. -/
def toInt16 (lo hi : Nat) : Int :=
  let v := lo + 256 * hi
  if v < 32768 then (v : Int) else (v : Int) - 65536

/-- Decode a byte list as little-endian signed 16-bit PCM samples. -/
def pcm16Samples : List Nat → List Int
  | lo :: hi :: rest => toInt16 lo hi :: pcm16Samples rest
  | _ => []

/-- Modelled from the spec: "If channels > 1, downmix by averaging to mono".
Averages each adjacent (left, right) sample pair of interleaved stereo PCM.
No function in the source does this — it is the behaviour the spec
prescribes, used to exhibit the gap. -/
def downmixAvg : List Int → List Int
  | l :: r :: rest => ((l + r) / 2) :: downmixAvg rest
  | _ => []

/-- A 90-byte WAV response whose `data` chunk begins at offset 78: a RIFF
header with a 34-byte `LIST` chunk between `fmt ` and `data`.  Sample rate
24000 Hz (bytes 24–27), mono, 16-bit; the PCM payload is the four bytes
`[11, 22, 33, 44]` at offsets 86–89. -/
def wav78 : List Nat :=
  [82, 73, 70, 70, 82, 0, 0, 0, 87, 65, 86, 69,
   102, 109, 116, 32, 16, 0, 0, 0, 1, 0, 1, 0,
   192, 93, 0, 0, 128, 187, 0, 0, 2, 0, 16, 0,
   76, 73, 83, 84, 34, 0, 0, 0,
   0, 0, 0, 0, 0, 0, 0, 0, 0, 0, 0, 0, 0, 0, 0, 0, 0,
   0, 0, 0, 0, 0, 0, 0, 0, 0, 0, 0, 0, 0, 0, 0, 0, 0,
   100, 97, 116, 97, 4, 0, 0, 0,
   11, 22, 33, 44]

/-- A 48-byte stereo WAV response with the standard 44-byte header:
2 channels (bytes 22–23), 24000 Hz, 16-bit; the payload holds one stereo
frame, left sample 100 and right sample 200. -/
def stereoWav : List Nat :=
  [82, 73, 70, 70, 40, 0, 0, 0, 87, 65, 86, 69,
   102, 109, 116, 32, 16, 0, 0, 0, 1, 0, 2, 0,
   192, 93, 0, 0, 0, 119, 1, 0, 4, 0, 16, 0,
   100, 97, 116, 97, 4, 0, 0, 0,
   100, 0, 200, 0]

/-! ## Call transcript assembly (`phone-call.ts`, lines 187–243) -/

/-- The OpenAI Realtime events `VoiceHandler.handleOpenAIEvent` reacts to. -/
inductive OAIEvent where
  /-- `conversation.item.input_audio_transcription.completed` with the user's
  transcribed text. -/
  | transcriptionCompleted (transcript : String)
  /-- `response.done` with the assistant's combined output text. -/
  | responseDone (assistantText : String)
  /-- An upstream `error` event. -/
  | errorEvent (message : String)
deriving DecidableEq

/-- `handleOpenAIEvent` pushes the transcript of every
`input_audio_transcription.completed` event onto `this.userResponses`, in
arrival order; no other event touches the list. -/
def userResponses (events : List OAIEvent) : List String :=
  events.filterMap fun e => match e with
    | OAIEvent.transcriptionCompleted t => some t
    | _ => none

/-- `completeCall`: `const transcript = this.userResponses.join('\n\n');`
then resolves with `transcript || 'No response captured'` (the sentinel is
used whenever the joined string is falsy, i.e. empty). -/
def completeCallTranscript (responses : List String) : String :=
  let transcript := String.intercalate "\n\n" responses
  if transcript = "" then "No response captured" else transcript

/-! ## `waitForTranscript` waiters (`stt-deepgram.ts`, lines 237–250)

Each call to `waitForTranscript` creates a promise (a waiter), arms a
timeout, and overwrites `this.onTranscriptCallback` with a callback that
settles that promise.  The model tracks, for each waiter (numbered in call
order): its settlement status, whether its timeout is still armed, and which
waiter the single callback slot currently points at. -/

/-- Settlement status of one waiter promise. -/
inductive WaiterStatus where
  | pending
  | resolvedWith
  | rejectedTimeout
deriving DecidableEq

/-- The session state relevant to `waitForTranscript`. -/
structure WaiterState where
  nextId : Nat
  status : Nat → WaiterStatus
  armed : Nat → Bool
  slot : Option Nat

/-- No waiter yet: the callback slot is empty. -/
def initWaiters : WaiterState :=
  { nextId := 0, status := fun _ => WaiterStatus.pending,
    armed := fun _ => false, slot := none }

/-- Events acting on the waiter state. -/
inductive WaiterEvent where
  /-- A `waitForTranscript` call: new pending promise, timeout armed,
  `onTranscriptCallback` overwritten to point at the new waiter. -/
  | newWaiter
  /-- Waiter `i`'s timeout fires (possible only while still armed): the
  handler sets `onTranscriptCallback = null` (whoever it pointed at) and
  rejects waiter `i` with `Transcript timeout`. -/
  | timeoutFire (i : Nat)
  /-- `onTranscriptCallback?.(transcript)`: if the slot holds waiter `j`,
  its callback clears `j`'s timeout, nulls the slot and resolves `j`. -/
  | deliver
deriving DecidableEq

/-- One event step, following the source's handlers. -/
def waiterStep (s : WaiterState) : WaiterEvent → WaiterState
  | WaiterEvent.newWaiter =>
    { nextId := s.nextId + 1
      status := fun k => if k = s.nextId then WaiterStatus.pending else s.status k
      armed := fun k => if k = s.nextId then true else s.armed k
      slot := some s.nextId }
  | WaiterEvent.timeoutFire i =>
    if s.armed i then
      { s with
        armed := fun k => if k = i then false else s.armed k
        slot := none
        status := fun k =>
          if k = i then
            if s.status i = WaiterStatus.pending then WaiterStatus.rejectedTimeout
            else s.status i
          else s.status k }
    else s
  | WaiterEvent.deliver =>
    match s.slot with
    | some j =>
      { s with
        armed := fun k => if k = j then false else s.armed k
        slot := none
        status := fun k =>
          if k = j then
            if s.status j = WaiterStatus.pending then WaiterStatus.resolvedWith
            else s.status j
          else s.status k }
    | none => s

/-- Run a sequence of waiter events. -/
def waiterRun (s : WaiterState) : List WaiterEvent → WaiterState
  | [] => s
  | e :: es => waiterRun (waiterStep s e) es

/-- Waiter `i` exists and is still able to settle (resolve or reject). -/
def outstanding (s : WaiterState) (i : Nat) : Prop :=
  i < s.nextId ∧ s.status i = WaiterStatus.pending

instance (s : WaiterState) (i : Nat) : Decidable (outstanding s i) := by
  unfold outstanding
  infer_instance

/-- The callback slot, if occupied, points at a waiter newer than `i`. -/
def slotAbove (s : WaiterState) (i : Nat) : Bool :=
  match s.slot with
  | some j => decide (i < j)
  | none => true

/-! ## Deepgram transcript accumulation (`stt-deepgram.ts`, lines 170–225) -/

/-- The Deepgram events `handleEvent` dispatches on.  A `Results` event with
missing `channel.alternatives[0]` or missing transcript behaves like an
empty-string transcript: both are dropped by the same early returns. -/
inductive DGEvent where
  | results (transcript : String) (isFinal : Bool) (speechFinal : Bool)
  | speechStarted
  | utteranceEnd
  | metadata
  | errorReceived
deriving DecidableEq

/-- A callback invocation performed while handling events: `onPartialCallback`
or `onTranscriptCallback` with the given text. -/
inductive DGOut where
  | partialOut (text : String)
  | transcriptOut (text : String)
deriving DecidableEq

/-- The session state the transcript handlers touch. -/
structure DGState where
  pendingTranscript : String
deriving DecidableEq

/-- JavaScript `String.prototype.trim`: strip leading and trailing
whitespace (structurally recursive so that concrete runs evaluate). -/
def trimStr (s : String) : String :=
  ⟨((s.data.dropWhile Char.isWhitespace).reverse.dropWhile Char.isWhitespace).reverse⟩

/-- `handleTranscriptResult`: drop missing/empty transcripts; when
`is_final`, append the segment plus a space to `pendingTranscript` and report
the trimmed accumulation as a partial; when additionally `speech_final`,
also invoke the transcript callback with the trimmed accumulation and clear
the accumulator; interim results only report a partial. -/
def handleTranscriptResult (s : DGState) (transcript : String)
    (isFinal speechFinal : Bool) : DGState × List DGOut :=
  if transcript = "" then (s, [])
  else if isFinal = true then
    if speechFinal = true then
      (⟨""⟩, [DGOut.partialOut (trimStr (s.pendingTranscript ++ transcript ++ " ")),
        DGOut.transcriptOut (trimStr (s.pendingTranscript ++ transcript ++ " "))])
    else
      (⟨s.pendingTranscript ++ transcript ++ " "⟩,
        [DGOut.partialOut (trimStr (s.pendingTranscript ++ transcript ++ " "))])
  else
    (s, [DGOut.partialOut (trimStr (s.pendingTranscript ++ transcript))])

/-- `handleEvent`: `Results` goes to `handleTranscriptResult`;
`SpeechStarted` clears the accumulator; `UtteranceEnd` flushes the trimmed
accumulator to the transcript callback when it is nonblank; `Metadata` and
`Error` are logged only. -/
def handleEvent (s : DGState) : DGEvent → DGState × List DGOut
  | DGEvent.results t f sf => handleTranscriptResult s t f sf
  | DGEvent.speechStarted => (⟨""⟩, [])
  | DGEvent.utteranceEnd =>
    if trimStr s.pendingTranscript = "" then (s, [])
    else (⟨""⟩, [DGOut.transcriptOut (trimStr s.pendingTranscript)])
  | DGEvent.metadata => (s, [])
  | DGEvent.errorReceived => (s, [])

/-- Process a sequence of recognizer events, collecting every callback
invocation in order. -/
def handleEvents (s : DGState) : List DGEvent → DGState × List DGOut
  | [] => (s, [])
  | e :: es =>
    ((handleEvents (handleEvent s e).1 es).1,
      (handleEvent s e).2 ++ (handleEvents (handleEvent s e).1 es).2)

/-- Segments joined the way the accumulator joins them: each followed by one
space. -/
def joinSp : List String → String
  | [] => ""
  | t :: ts => t ++ " " ++ joinSp ts

/-- No transcript-callback invocation occurs in the output list. -/
def noTranscriptOut (outs : List DGOut) : Bool :=
  outs.all fun o => match o with
    | DGOut.transcriptOut _ => false
    | _ => true

/-! # Theorems -/

/-- Processing `es1 ++ es2` processes `es1`, then `es2` from the reached
state, concatenating the outputs. -/
theorem handleEvents_append (s : DGState) (es1 es2 : List DGEvent) :
    handleEvents s (es1 ++ es2) =
      ((handleEvents (handleEvents s es1).1 es2).1,
        (handleEvents s es1).2 ++ (handleEvents (handleEvents s es1).1 es2).2) := by
  induction es1 generalizing s with
  | nil => simp [handleEvents]
  | cons e es ih =>
    simp [handleEvents, ih]

/-- `noTranscriptOut` ignores a leading partial. -/
theorem noTranscriptOut_partial_cons (t : String) (l : List DGOut) :
    noTranscriptOut (DGOut.partialOut t :: l) = noTranscriptOut l := by
  simp [noTranscriptOut]

/-- A run of nonempty final, non-`speech_final` segments only accumulates:
the buffer ends as the initial buffer followed by the space-joined segments,
and the transcript callback is never invoked along the way. -/
theorem handleEvents_finals (finals : List String) :
    ∀ p : String, (∀ u ∈ finals, u ≠ "") →
    (handleEvents ⟨p⟩ (finals.map fun u => DGEvent.results u true false)).1 =
        ⟨p ++ joinSp finals⟩ ∧
      noTranscriptOut
        (handleEvents ⟨p⟩ (finals.map fun u => DGEvent.results u true false)).2 = true := by
  induction finals with
  | nil =>
    intro p _
    refine ⟨?_, rfl⟩
    show (⟨p⟩ : DGState) = ⟨p ++ joinSp []⟩
    rw [joinSp, String.append_empty]
  | cons u us ih =>
    intro p h
    have hu : u ≠ "" := h u (List.mem_cons_self _ _)
    have hstep : handleEvent ⟨p⟩ (DGEvent.results u true false) =
        (⟨p ++ u ++ " "⟩, [DGOut.partialOut (trimStr (p ++ u ++ " "))]) := by
      simp [handleEvent, handleTranscriptResult, hu]
    obtain ⟨ih1, ih2⟩ := ih (p ++ u ++ " ") (fun v hv => h v (List.mem_cons_of_mem _ hv))
    constructor
    · show (handleEvents (handleEvent ⟨p⟩ (DGEvent.results u true false)).1
          (us.map fun v => DGEvent.results v true false)).1 = ⟨p ++ joinSp (u :: us)⟩
      rw [hstep]
      show (handleEvents ⟨p ++ u ++ " "⟩ (us.map fun v => DGEvent.results v true false)).1 =
        ⟨p ++ joinSp (u :: us)⟩
      rw [ih1, joinSp]
      simp [String.append_assoc]
    · show noTranscriptOut ((handleEvent ⟨p⟩ (DGEvent.results u true false)).2 ++
          (handleEvents (handleEvent ⟨p⟩ (DGEvent.results u true false)).1
            (us.map fun v => DGEvent.results v true false)).2) = true
      rw [hstep]
      show noTranscriptOut (DGOut.partialOut (trimStr (p ++ u ++ " ")) ::
          (handleEvents ⟨p ++ u ++ " "⟩ (us.map fun v => DGEvent.results v true false)).2) = true
      rw [noTranscriptOut_partial_cons]
      exact ih2

/-- C1 counterexample: the endpoint of the claim fires — a `Results` event
with `speech_final = true` (here with an empty transcript, as Deepgram sends
when the closing word was already emitted), and separately an `UtteranceEnd`
with nothing accumulated — yet the waiter callback is NOT invoked and, in
the first case, the accumulator still holds the segment `hello`. -/
theorem utterance_endpoint_cex :
    (handleEvents ⟨""⟩ [DGEvent.results "hello" true false,
        DGEvent.results "" true true]).2 = [DGOut.partialOut "hello"] ∧
      noTranscriptOut (handleEvents ⟨""⟩ [DGEvent.results "hello" true false,
        DGEvent.results "" true true]).2 = true ∧
      (handleEvents ⟨""⟩ [DGEvent.results "hello" true false,
        DGEvent.results "" true true]).1 = ⟨"hello "⟩ ∧
      (handleEvents ⟨""⟩ [DGEvent.utteranceEnd]).2 = [] := by
  decide

/-- C1 amended: nonempty `is_final` segments accumulate in the utterance
buffer (each with a trailing space) with no transcript delivery; the
endpoint delivers when it carries content: a final `Results` with
`speech_final = true` and a nonempty transcript invokes the waiter callback
with the trimmed space-joined accumulation (including that last segment) and
clears the accumulator, and an `UtteranceEnd` arriving while the trimmed
accumulation is nonblank invokes the callback with the trimmed accumulation
and clears the accumulator.  (Endpoint events without content — empty
`speech_final` transcript, or `UtteranceEnd` on a blank buffer — deliver
nothing, and `SpeechStarted` clears the buffer; see the counterexample.) -/
theorem deepgram_utterance_accumulation (p : String) (finals : List String) (t : String)
    (hne : ∀ u ∈ finals, u ≠ "") (ht : t ≠ "")
    (hpe : trimStr (p ++ joinSp finals) ≠ "") :
    (handleEvents ⟨p⟩ (finals.map fun u => DGEvent.results u true false)).1 =
        ⟨p ++ joinSp finals⟩ ∧
      noTranscriptOut
        (handleEvents ⟨p⟩ (finals.map fun u => DGEvent.results u true false)).2 = true ∧
      handleEvents ⟨p⟩ ((finals.map fun u => DGEvent.results u true false) ++
          [DGEvent.results t true true]) =
        (⟨""⟩, (handleEvents ⟨p⟩ (finals.map fun u => DGEvent.results u true false)).2 ++
          [DGOut.partialOut (trimStr (p ++ joinSp finals ++ t ++ " ")),
           DGOut.transcriptOut (trimStr (p ++ joinSp finals ++ t ++ " "))]) ∧
      handleEvents ⟨p⟩ ((finals.map fun u => DGEvent.results u true false) ++
          [DGEvent.utteranceEnd]) =
        (⟨""⟩, (handleEvents ⟨p⟩ (finals.map fun u => DGEvent.results u true false)).2 ++
          [DGOut.transcriptOut (trimStr (p ++ joinSp finals))]) := by
  obtain ⟨h1, h2⟩ := handleEvents_finals finals p hne
  refine ⟨h1, h2, ?_, ?_⟩
  · rw [handleEvents_append, h1]
    have hstep : handleEvent ⟨p ++ joinSp finals⟩ (DGEvent.results t true true) =
        (⟨""⟩, [DGOut.partialOut (trimStr (p ++ joinSp finals ++ t ++ " ")),
          DGOut.transcriptOut (trimStr (p ++ joinSp finals ++ t ++ " "))]) := by
      simp [handleEvent, handleTranscriptResult, ht]
    simp [handleEvents, hstep]
  · rw [handleEvents_append, h1]
    have hstep : handleEvent ⟨p ++ joinSp finals⟩ DGEvent.utteranceEnd =
        (⟨""⟩, [DGOut.transcriptOut (trimStr (p ++ joinSp finals))]) := by
      simp [handleEvent, hpe]
    simp [handleEvents, hstep]

/-- Witness for C1 amended: two finals `hello`, `world` followed by
`UtteranceEnd` deliver exactly one transcript, `hello world`, and clear the
buffer. -/
theorem deepgram_utterance_accumulation_witness :
    handleEvents ⟨""⟩ ((["hello", "world"].map fun u => DGEvent.results u true false) ++
        [DGEvent.utteranceEnd]) =
      (⟨""⟩, (handleEvents ⟨""⟩ (["hello", "world"].map fun u =>
          DGEvent.results u true false)).2 ++ [DGOut.transcriptOut "hello world"]) := by
  have h := (deepgram_utterance_accumulation "" ["hello", "world"] "x"
    (by decide) (by decide) (by decide)).2.2.2
  rw [h]
  decide

/-- Unfolding lemma for one step of `reconnRun`. -/
theorem reconnRun_cons (s : ReconnState) (e : ReconnEvent) (es : List ReconnEvent) :
    reconnRun s (e :: es) =
      ((reconnRun (reconnStep s e).1 es).1,
        (reconnStep s e).2 ++ (reconnRun (reconnStep s e).1 es).2) := by
  rcases hstep : reconnStep s e with ⟨s1, out1⟩
  rcases hrun : reconnRun s1 es with ⟨s2, out2⟩
  simp [reconnRun, hstep, hrun]

/-- `countScheduled` is additive over action-list concatenation. -/
theorem countScheduled_append (a b : List ReconnAction) :
    countScheduled (a ++ b) = countScheduled a + countScheduled b :=
  List.countP_append _ _ _

/-- `countScheduled` of a list headed by a scheduled attempt. -/
theorem countScheduled_sched_cons (d : Nat) (l : List ReconnAction) :
    countScheduled (ReconnAction.scheduleReconnect d :: l) = countScheduled l + 1 := by
  simp [countScheduled, List.countP_cons]

/-- `countScheduled` of a list headed by a connection opening. -/
theorem countScheduled_open_cons (l : List ReconnAction) :
    countScheduled (ReconnAction.openConnection :: l) = countScheduled l := by
  simp [countScheduled, List.countP_cons]

/-- A session whose `closed` flag is set (and whose socket is down) is inert:
no event produces any action or changes the state. -/
theorem reconn_inert_of_closed (es : List ReconnEvent) (a : Nat) :
    reconnRun ⟨true, false, a⟩ es = (⟨true, false, a⟩, []) := by
  induction es with
  | nil => rfl
  | cons e es ih =>
    have hstep : reconnStep ⟨true, false, a⟩ e = (⟨true, false, a⟩, []) := by
      cases e with
      | wsClose => rfl
      | timerFire success => rfl
    rw [reconnRun_cons, hstep]
    simp [ih]

/-- As long as no reconnect succeeds, the attempt counter grows by exactly one
per scheduled attempt and never exceeds `maxReconnectAttempts`. -/
theorem reconn_attempts_accounting (es : List ReconnEvent) :
    ∀ (c cn : Bool) (a : Nat), ReconnEvent.timerFire true ∉ es →
    (reconnRun ⟨c, cn, a⟩ es).1.reconnectAttempts =
        a + countScheduled (reconnRun ⟨c, cn, a⟩ es).2 ∧
      (a ≤ maxReconnectAttempts →
        (reconnRun ⟨c, cn, a⟩ es).1.reconnectAttempts ≤ maxReconnectAttempts) := by
  induction es with
  | nil =>
    intro c cn a _
    simp [reconnRun, countScheduled]
  | cons e es ih =>
    intro c cn a hnosucc
    have hmem : ReconnEvent.timerFire true ∉ es :=
      fun h => hnosucc (List.mem_cons_of_mem _ h)
    cases e with
    | wsClose =>
      by_cases hc : c = true
      · subst hc
        have hstep : reconnStep ⟨true, cn, a⟩ ReconnEvent.wsClose = (⟨true, false, a⟩, []) := rfl
        obtain ⟨h1, h2⟩ := ih true false a hmem
        rw [reconnRun_cons, hstep]
        exact ⟨h1, h2⟩
      · have hc' : c = false := by simpa using hc
        subst hc'
        by_cases hmax : a ≥ maxReconnectAttempts
        · have hstep : reconnStep ⟨false, cn, a⟩ ReconnEvent.wsClose =
              (⟨false, false, a⟩, []) := by
            simp [reconnStep, hmax]
          obtain ⟨h1, h2⟩ := ih false false a hmem
          rw [reconnRun_cons, hstep]
          exact ⟨h1, h2⟩
        · have hstep : reconnStep ⟨false, cn, a⟩ ReconnEvent.wsClose =
              (⟨false, false, a + 1⟩,
                [ReconnAction.scheduleReconnect
                  (reconnectDelayMs * 2 ^ (a + 1 - 1))]) := by
            simp [reconnStep, hmax]
          obtain ⟨h1, h2⟩ := ih false false (a + 1) hmem
          rw [reconnRun_cons, hstep]
          show (reconnRun ⟨false, false, a + 1⟩ es).1.reconnectAttempts =
              a + countScheduled (ReconnAction.scheduleReconnect
                (reconnectDelayMs * 2 ^ (a + 1 - 1)) :: (reconnRun ⟨false, false, a + 1⟩ es).2) ∧
            (a ≤ maxReconnectAttempts →
              (reconnRun ⟨false, false, a + 1⟩ es).1.reconnectAttempts ≤ maxReconnectAttempts)
          rw [countScheduled_sched_cons]
          have h5 : maxReconnectAttempts = 5 := rfl
          constructor
          · omega
          · intro hle
            exact h2 (by omega)
    | timerFire success =>
      have hfalse : success = false := by
        cases success
        · rfl
        · exact absurd (List.mem_cons_self _ _) hnosucc
      subst hfalse
      by_cases hc : c = true
      · subst hc
        have hstep : reconnStep ⟨true, cn, a⟩ (ReconnEvent.timerFire false) =
            (⟨true, cn, a⟩, []) := rfl
        obtain ⟨h1, h2⟩ := ih true cn a hmem
        rw [reconnRun_cons, hstep]
        exact ⟨h1, h2⟩
      · have hc' : c = false := by simpa using hc
        subst hc'
        have hstep : reconnStep ⟨false, cn, a⟩ (ReconnEvent.timerFire false) =
            (⟨false, cn, a⟩, [ReconnAction.openConnection]) := rfl
        obtain ⟨h1, h2⟩ := ih false cn a hmem
        rw [reconnRun_cons, hstep]
        show (reconnRun ⟨false, cn, a⟩ es).1.reconnectAttempts =
            a + countScheduled (ReconnAction.openConnection ::
              (reconnRun ⟨false, cn, a⟩ es).2) ∧
          (a ≤ maxReconnectAttempts →
            (reconnRun ⟨false, cn, a⟩ es).1.reconnectAttempts ≤ maxReconnectAttempts)
        rw [countScheduled_open_cons]
        exact ⟨h1, h2⟩

/-- C2: (i) every upstream close seen while the session is not intentionally
closed and fewer than `maxReconnectAttempts` attempts are outstanding
schedules the `n`-th reconnect attempt (`n = reconnectAttempts + 1`) with
delay `reconnectDelayMs * 2 ^ (n - 1)`, base 1000 ms; (ii) in any run in
which no reconnect succeeds, starting from a freshly connected session, at
most `maxReconnectAttempts = 5` attempts are ever scheduled. -/
theorem reconnect_backoff_policy :
    (∀ s : ReconnState, s.closed = false →
      s.reconnectAttempts + 1 ≤ maxReconnectAttempts →
      reconnStep s ReconnEvent.wsClose =
        ({ s with connected := false, reconnectAttempts := s.reconnectAttempts + 1 },
          [ReconnAction.scheduleReconnect
            (reconnectDelayMs * 2 ^ (s.reconnectAttempts + 1 - 1))])) ∧
      ∀ (es : List ReconnEvent) (s : ReconnState), ReconnEvent.timerFire true ∉ es →
        s.reconnectAttempts = 0 →
        countScheduled (reconnRun s es).2 ≤ maxReconnectAttempts := by
  constructor
  · intro s hc hlt
    have hmax : ¬ s.reconnectAttempts ≥ maxReconnectAttempts := by omega
    simp [reconnStep, hc, hmax]
  · intro es s hnosucc h0
    obtain ⟨c, cn, a⟩ := s
    simp only at h0
    subst h0
    obtain ⟨h1, h2⟩ := reconn_attempts_accounting es c cn 0 hnosucc
    have hb := h2 (by omega)
    omega

/-- Witness for C2: from two prior attempts the third is scheduled after
`1000 × 2² = 4000` ms, and a run of six failed close/retry rounds schedules at
most five attempts. -/
theorem reconnect_backoff_policy_witness :
    reconnStep ⟨false, false, 2⟩ ReconnEvent.wsClose =
        (⟨false, false, 3⟩, [ReconnAction.scheduleReconnect 4000]) ∧
      countScheduled (reconnRun ⟨false, true, 0⟩
          [ReconnEvent.wsClose, ReconnEvent.timerFire false,
           ReconnEvent.wsClose, ReconnEvent.timerFire false,
           ReconnEvent.wsClose, ReconnEvent.timerFire false,
           ReconnEvent.wsClose, ReconnEvent.timerFire false,
           ReconnEvent.wsClose, ReconnEvent.timerFire false,
           ReconnEvent.wsClose, ReconnEvent.wsClose]).2 ≤ maxReconnectAttempts := by
  constructor
  · have h := reconnect_backoff_policy.1 ⟨false, false, 2⟩ rfl (by decide)
    rw [h]
    decide
  · exact reconnect_backoff_policy.2 _ _ (by decide) rfl

/-- C8: after `close()` the session is inert for every subsequent sequence of
WebSocket close events and timer firings: no reconnect is ever scheduled and
no upstream connection is ever opened (the run emits no action at all), and
the state stays closed. -/
theorem close_prevents_reconnection (s : ReconnState) (es : List ReconnEvent) :
    reconnRun (closeSession s) es = (closeSession s, []) :=
  reconn_inert_of_closed es s.reconnectAttempts

/-- C3 counterexample: on a WAV whose `data` chunk begins at offset 78 the
code does NOT locate the data chunk: the FourCC scan the spec prescribes
finds `data` at 78 with payload `[11, 22, 33, 44]` at offset 86, but
`synthesize` (which strips a fixed 44 bytes) returns 46 bytes that still
contain the `LIST` chunk and the `data` chunk header, not the PCM payload. -/
theorem synthesize_no_fourcc_scan_cex :
    findDataChunk wav78 = some 78 ∧
      wav78.drop 86 = [11, 22, 33, 44] ∧
      (synthesizeWav true 24000 wav78).pcm ≠ wav78.drop 86 ∧
      (synthesizeWav true 24000 wav78).pcm.length = 46 := by
  decide

/-- C3 amended: `synthesize` assumes the standard 44-byte header: for any
WAV-formatted response consisting of a 44-byte header followed by a
nonempty payload, it returns exactly the bytes after offset 44 as PCM,
together with the sample rate parsed from header offset 24.  A WAV whose
`data` chunk begins later keeps the extra header bytes inside the returned
PCM (see the counterexample). -/
theorem synthesize_strips_fixed_44_header (header payload : List Nat) (rate : Nat)
    (hlen : header.length = 44) (hne : payload ≠ []) :
    (synthesizeWav true rate (header ++ payload)).pcm = payload ∧
      (synthesizeWav true rate (header ++ payload)).sampleRate = readUInt32LE header 24 := by
  have hplen : 0 < payload.length := List.length_pos.mpr hne
  have hcond : true = true ∧ 44 < (header ++ payload).length := by
    refine ⟨rfl, ?_⟩
    rw [List.length_append]
    omega
  constructor
  · rw [synthesizeWav, if_pos hcond]
    show (header ++ payload).drop 44 = payload
    rw [← hlen, List.drop_left]
  · rw [synthesizeWav, if_pos hcond]
    show readUInt32LE (header ++ payload) 24 = readUInt32LE header 24
    unfold readUInt32LE
    rw [List.getD_append header payload 0 24 (by omega),
        List.getD_append header payload 0 (24 + 1) (by omega),
        List.getD_append header payload 0 (24 + 2) (by omega),
        List.getD_append header payload 0 (24 + 3) (by omega)]

/-- Witness for C3 amended: the standard-header stereo response is split
right after byte 44 and its header rate 24000 is reported. -/
theorem synthesize_strips_fixed_44_header_witness :
    (synthesizeWav true 8000 stereoWav).pcm = [100, 0, 200, 0] ∧
      (synthesizeWav true 8000 stereoWav).sampleRate = 24000 := by
  have h := synthesize_strips_fixed_44_header (stereoWav.take 44) [100, 0, 200, 0] 8000
    (by decide) (by decide)
  have he : stereoWav.take 44 ++ [100, 0, 200, 0] = stereoWav := by decide
  rw [he] at h
  refine ⟨h.1, ?_⟩
  rw [h.2]
  decide

/-- C4 counterexample: on a stereo WAV (channel count 2 at offset 22) the
PCM payload is returned as-is, still interleaved: the samples come back as
`[100, 200]`, not the averaged mono `[150]` the claim requires. -/
theorem synthesize_no_downmix_cex :
    readUInt16LE stereoWav 22 = 2 ∧
      (synthesizeWav true 24000 stereoWav).pcm = [100, 0, 200, 0] ∧
      pcm16Samples (synthesizeWav true 24000 stereoWav).pcm = [100, 200] ∧
      downmixAvg (pcm16Samples (stereoWav.drop 44)) = [150] ∧
      pcm16Samples (synthesizeWav true 24000 stereoWav).pcm ≠
        downmixAvg (pcm16Samples (stereoWav.drop 44)) := by
  decide

/-- The WAV branch of `synthesize` depends only on the bytes from offset 24
on: any 24-byte prefix yields the payload after 20 more bytes and the rate
at the start of the remainder. -/
theorem synthesizeWav_header24 (front post : List Nat) (rate : Nat)
    (hfront : front.length = 24) (hpost : 21 ≤ post.length) :
    synthesizeWav true rate (front ++ post) =
      { pcm := post.drop 20, sampleRate := readUInt32LE post 0 } := by
  have hcond : true = true ∧ 44 < (front ++ post).length := by
    refine ⟨rfl, ?_⟩
    rw [List.length_append]
    omega
  rw [synthesizeWav, if_pos hcond]
  simp only [SynthesisResult.mk.injEq]
  constructor
  · rw [show (44 : Nat) = front.length + 20 from by omega, List.drop_append]
  · unfold readUInt32LE
    rw [List.getD_append_right front post 0 24 (by omega),
        List.getD_append_right front post 0 (24 + 1) (by omega),
        List.getD_append_right front post 0 (24 + 2) (by omega),
        List.getD_append_right front post 0 (24 + 3) (by omega),
        hfront]

/-- C4 amended: `synthesize` never downmixes: the result is entirely
independent of the channel-count field (bytes 22–23 of the header), for
every buffer shape `pre(22 bytes) ++ channelFieldLE ++ post(≥ 21 bytes)`. -/
theorem synthesize_ignores_channel_count (pre : List Nat) (c1 c2 : Nat) (post : List Nat)
    (rate : Nat) (hpre : pre.length = 22) (hpost : 21 ≤ post.length) :
    synthesizeWav true rate (pre ++ [c1 % 256, c1 / 256 % 256] ++ post) =
      synthesizeWav true rate (pre ++ [c2 % 256, c2 / 256 % 256] ++ post) := by
  have hl1 : (pre ++ [c1 % 256, c1 / 256 % 256]).length = 24 := by
    rw [List.length_append, hpre]
    rfl
  have hl2 : (pre ++ [c2 % 256, c2 / 256 % 256]).length = 24 := by
    rw [List.length_append, hpre]
    rfl
  rw [synthesizeWav_header24 _ _ _ hl1 hpost, synthesizeWav_header24 _ _ _ hl2 hpost]

/-- Witness for C4 amended: rewriting the channel-count field of the stereo
response from 2 to 5 leaves the synthesis result unchanged. -/
theorem synthesize_ignores_channel_count_witness :
    synthesizeWav true 24000
        (stereoWav.take 22 ++ [2 % 256, 2 / 256 % 256] ++ stereoWav.drop 24) =
      synthesizeWav true 24000
        (stereoWav.take 22 ++ [5 % 256, 5 / 256 % 256] ++ stereoWav.drop 24) :=
  synthesize_ignores_channel_count (stereoWav.take 22) 2 5 (stereoWav.drop 24) 24000
    (by decide) (by decide)

/-- C5 counterexample: two overlapping `waitForTranscript` calls leave TWO
waiters outstanding at once — both are still pending, and each can still
settle: the first can still be rejected by its own timeout, and the second
can still resolve with a transcript. -/
theorem single_waiter_cex :
    outstanding (waiterRun initWaiters [WaiterEvent.newWaiter, WaiterEvent.newWaiter]) 0 ∧
      outstanding (waiterRun initWaiters [WaiterEvent.newWaiter, WaiterEvent.newWaiter]) 1 ∧
      (waiterRun initWaiters [WaiterEvent.newWaiter, WaiterEvent.newWaiter,
          WaiterEvent.timeoutFire 0]).status 0 = WaiterStatus.rejectedTimeout ∧
      (waiterRun initWaiters [WaiterEvent.newWaiter, WaiterEvent.newWaiter,
          WaiterEvent.deliver]).status 1 = WaiterStatus.resolvedWith := by
  decide

/-- C5 amended: the transcript-callback slot holds at most one waiter, so a
waiter that has been superseded (the slot is empty or points at a newer
waiter) can never be resolved with a transcript by any later sequence of
calls, timeouts and deliveries — it can only reject on its own timeout. -/
theorem superseded_waiter_never_resolves (es : List WaiterEvent) (s : WaiterState) (i : Nat)
    (hslot : slotAbove s i = true) (hlt : i < s.nextId)
    (hst : s.status i ≠ WaiterStatus.resolvedWith) :
    (waiterRun s es).status i ≠ WaiterStatus.resolvedWith := by
  induction es generalizing s with
  | nil => exact hst
  | cons e es ih =>
    cases e with
    | newWaiter =>
      show (waiterRun (waiterStep s WaiterEvent.newWaiter) es).status i ≠
        WaiterStatus.resolvedWith
      apply ih
      · show slotAbove (waiterStep s WaiterEvent.newWaiter) i = true
        simp only [waiterStep, slotAbove]
        exact decide_eq_true hlt
      · show i < s.nextId + 1
        omega
      · show (if i = s.nextId then WaiterStatus.pending else s.status i) ≠
          WaiterStatus.resolvedWith
        rw [if_neg (by omega : ¬ i = s.nextId)]
        exact hst
    | timeoutFire m =>
      show (waiterRun (waiterStep s (WaiterEvent.timeoutFire m)) es).status i ≠
        WaiterStatus.resolvedWith
      by_cases ha : s.armed m = true
      · have hstep : waiterStep s (WaiterEvent.timeoutFire m) =
            { s with
              armed := fun k => if k = m then false else s.armed k
              slot := none
              status := fun k =>
                if k = m then
                  if s.status m = WaiterStatus.pending then WaiterStatus.rejectedTimeout
                  else s.status m
                else s.status k } := by
          simp [waiterStep, ha]
        rw [hstep]
        apply ih
        · rfl
        · exact hlt
        · show (if i = m then
              (if s.status m = WaiterStatus.pending then WaiterStatus.rejectedTimeout
                else s.status m)
              else s.status i) ≠ WaiterStatus.resolvedWith
          by_cases him : i = m
          · subst him
            rw [if_pos rfl]
            by_cases hp : s.status i = WaiterStatus.pending
            · rw [if_pos hp]
              exact fun h => WaiterStatus.noConfusion h
            · rw [if_neg hp]
              exact hst
          · rw [if_neg him]
            exact hst
      · have ha' : s.armed m = false := by simpa using ha
        have hstep : waiterStep s (WaiterEvent.timeoutFire m) = s := by
          simp [waiterStep, ha']
        rw [hstep]
        exact ih s hslot hlt hst
    | deliver =>
      show (waiterRun (waiterStep s WaiterEvent.deliver) es).status i ≠
        WaiterStatus.resolvedWith
      rcases hsl : s.slot with _ | j
      · have hstep : waiterStep s WaiterEvent.deliver = s := by
          simp [waiterStep, hsl]
        rw [hstep]
        exact ih s hslot hlt hst
      · have hij : i < j := by
          have := hslot
          rw [slotAbove, hsl] at this
          simpa using this
        have hstep : waiterStep s WaiterEvent.deliver =
            { s with
              armed := fun k => if k = j then false else s.armed k
              slot := none
              status := fun k =>
                if k = j then
                  if s.status j = WaiterStatus.pending then WaiterStatus.resolvedWith
                  else s.status j
                else s.status k } := by
          simp [waiterStep, hsl]
        rw [hstep]
        apply ih
        · rfl
        · exact hlt
        · show (if i = j then
              (if s.status j = WaiterStatus.pending then WaiterStatus.resolvedWith
                else s.status j)
              else s.status i) ≠ WaiterStatus.resolvedWith
          rw [if_neg (by omega : ¬ i = j)]
          exact hst

/-- Witness for C5 amended: after two `waitForTranscript` calls the first
waiter (id 0) is superseded; delivering a transcript resolves nothing for
it — it stays unresolved. -/
theorem superseded_waiter_never_resolves_witness :
    (waiterRun (waiterRun initWaiters [WaiterEvent.newWaiter, WaiterEvent.newWaiter])
        [WaiterEvent.deliver, WaiterEvent.timeoutFire 0]).status 0 ≠
      WaiterStatus.resolvedWith :=
  superseded_waiter_never_resolves [WaiterEvent.deliver, WaiterEvent.timeoutFire 0]
    (waiterRun initWaiters [WaiterEvent.newWaiter, WaiterEvent.newWaiter]) 0
    (by decide) (by decide) (by decide)

/-- C9 counterexample: a single user transcription event whose text is empty
makes the joined transcript empty, so `completeCall` resolves with the
sentinel `No response captured` even though a transcription event WAS
received — the claim requires the joined transcript (the empty string)
in that case. -/
theorem completed_transcript_cex :
    userResponses [OAIEvent.transcriptionCompleted ""] ≠ [] ∧
      completeCallTranscript (userResponses [OAIEvent.transcriptionCompleted ""]) ≠
        String.intercalate "\n\n" (userResponses [OAIEvent.transcriptionCompleted ""]) ∧
      completeCallTranscript (userResponses [OAIEvent.transcriptionCompleted ""]) =
        "No response captured" := by
  decide

/-- C9 amended: the transcript of a completed call is the user transcription
texts joined by blank lines in arrival order whenever that joined string is
nonempty, and the sentinel `No response captured` whenever the joined string
is empty — in particular when no transcription event was received.
Transcription events append to the response list in arrival order. -/
theorem completed_transcript_assembly (events : List OAIEvent) (t : String) :
    (String.intercalate "\n\n" (userResponses events) ≠ "" →
      completeCallTranscript (userResponses events) =
        String.intercalate "\n\n" (userResponses events)) ∧
      (String.intercalate "\n\n" (userResponses events) = "" →
        completeCallTranscript (userResponses events) = "No response captured") ∧
      userResponses (events ++ [OAIEvent.transcriptionCompleted t]) =
        userResponses events ++ [t] ∧
      userResponses [] = [] := by
  refine ⟨?_, ?_, ?_, rfl⟩
  · intro h
    simp [completeCallTranscript, h]
  · intro h
    simp [completeCallTranscript, h]
  · rw [userResponses, userResponses, List.filterMap_append]
    rfl

/-- Witness for C9 amended: two nonempty responses come back joined by one
blank line, and appending a third keeps arrival order. -/
theorem completed_transcript_assembly_witness :
    completeCallTranscript (userResponses
        [OAIEvent.transcriptionCompleted "hello", OAIEvent.errorEvent "e",
         OAIEvent.transcriptionCompleted "world"]) = "hello\n\nworld" ∧
      userResponses ([OAIEvent.transcriptionCompleted "hello"] ++
          [OAIEvent.transcriptionCompleted "bye"]) = ["hello", "bye"] := by
  constructor
  · have h := (completed_transcript_assembly
      [OAIEvent.transcriptionCompleted "hello", OAIEvent.errorEvent "e",
       OAIEvent.transcriptionCompleted "world"] "x").1
    rw [h (by decide)]
    decide
  · have h := (completed_transcript_assembly [OAIEvent.transcriptionCompleted "hello"]
      "bye").2.2.1
    rw [h]
    decide

/-- C10: for every integer `minutesUsed`, `getMinutesRemaining` is never
negative, and `hasMinutesRemaining` returns true exactly when
`getMinutesRemaining` is positive. -/
theorem billing_minutes_remaining (plan : SubscriptionPlan) (minutesUsed : Int) :
    0 ≤ getMinutesRemaining plan minutesUsed ∧
      (hasMinutesRemaining plan minutesUsed = true ↔
        0 < getMinutesRemaining plan minutesUsed) := by
  refine ⟨le_max_left 0 _, ?_⟩
  rw [hasMinutesRemaining, getMinutesRemaining, decide_eq_true_iff, lt_max_iff]
  omega

/-- C7: whenever the upstream WebSocket is not open, `sendAudio` performs no
send at all (it returns immediately: nothing sent, nothing queued, no error),
whatever the `connected` flag and the payload. -/
theorem sendAudio_drops_when_socket_not_open (connected : Bool) (wsReadyState : Option Nat)
    (muLawData : List Nat) (h : wsReadyState ≠ some WS_OPEN) :
    sendAudio connected wsReadyState muLawData = [] := by
  unfold sendAudio
  rw [if_neg]
  intro hc
  exact h hc.2

/-- Witness for C7: during a reconnect gap (`ws` null, `connected` true from
the caller's point of view is impossible, but even with `connected = true`)
nothing is sent. -/
theorem sendAudio_drops_when_socket_not_open_witness :
    sendAudio true none [1, 2, 3] = [] :=
  sendAudio_drops_when_socket_not_open true none [1, 2, 3] (by decide)

/-- C6: a POST to `/messages` whose `sessionId` is missing, or names no active
transport, is NOT rejected: with transports `[("a", 1), ("b", 2)]` registered
in that order, the handler dispatches the request to transport `2` — the most
recently registered session's transport — in both cases, instead of rejecting.
This evaluates the code at the failing input of the claim. -/
theorem messages_fallback_dispatches_to_most_recent :
    handleMessagesPost [("a", 1), ("b", 2)] none = MessagesOutcome.dispatched 2 ∧
      handleMessagesPost [("a", 1), ("b", 2)] (some "zzz") = MessagesOutcome.dispatched 2 ∧
      handleMessagesPost [] none = MessagesOutcome.rejected := by
  decide
